import Mathlib

/-!
Verification of the urban-env-dashboard data processing and clustering pipeline.

Shallow embedding of the core pipeline of the repository:
  * `src/data/process_data.py` — `compute_aqi`, `fill_missing_values`, the
    median-imputation loop of `generate_summary_csv`, and `run_clustering`;
  * `src/models/clustering.py` — `perform_clustering` (feature extraction,
    seeded K-means, cluster characterisation and naming, canonical
    relabelling by ascending mean PM2.5).

Numbers are modelled as exact rationals (`ℚ`); a missing value (pandas `NaN`)
is `none : Option ℚ`.  Python `round(x, 0)` is banker's rounding, embedded as
`pyRound`.  The sklearn calls are embedded as executable deterministic
functions: `KMeans(n_clusters=4, random_state=42, n_init=10)` becomes a pure
Lloyd iteration with a seeded deterministic initialisation, best-of-10 by
inertia (first found wins ties), and `StandardScaler` standardisation is
realised exactly by per-feature inverse-variance weighted squared distances
(dividing each coordinate by the standard deviation scales squared distances
by the inverse variance, which keeps all arithmetic rational); a zero-variance
feature gets weight 1, mirroring sklearn's `_handle_zeros_in_scale`.  The PCA
projection columns (`pca_1`, `pca_2`) are visualisation-only and are not
modelled.  Exceptions raised by the sklearn calls are modelled as
`Except.error` with fixed message strings.
-/

namespace UrbanEnv

/-! ### Air-Quality-Index Calculator (`compute_aqi`, src/data/process_data.py lines 37-72) -/

/-- Python's `round(x, 0)` on an exact rational: round to the nearest
integer, ties to the even integer (banker's rounding). -/
def pyRound (q : ℚ) : ℤ :=
  if q - ⌊q⌋ < 1/2 then ⌊q⌋
  else if 1/2 < q - ⌊q⌋ then ⌊q⌋ + 1
  else if ⌊q⌋ % 2 = 0 then ⌊q⌋ else ⌊q⌋ + 1

/-- The PM2.5 breakpoint table of `compute_aqi`:
`(bp_lo, bp_hi, aqi_lo, aqi_hi)` rows, in source order. -/
def breakpoints : List (ℚ × ℚ × ℤ × ℤ) :=
  [(0, 12, 0, 50),
   (12.1, 35.4, 51, 100),
   (35.5, 55.4, 101, 150),
   (55.5, 150.4, 151, 200),
   (150.5, 250.4, 201, 300),
   (250.5, 500.4, 301, 500)]

/-- The linear interpolation formula of `compute_aqi`:
`((aqi_hi - aqi_lo) / (bp_hi - bp_lo)) * (pm25 - bp_lo) + aqi_lo`. -/
def aqiLinear (lo hi : ℚ) (ilo ihi : ℤ) (pm : ℚ) : ℚ :=
  (((ihi : ℚ) - (ilo : ℚ)) / (hi - lo)) * (pm - lo) + (ilo : ℚ)

/-- The loop of `compute_aqi` over the breakpoint table: the first row whose
closed range contains the value wins; if no row matches, values above 500.4
are clamped to 500 and anything else is missing (`NaN`). -/
def aqiFromBreakpoints : List (ℚ × ℚ × ℤ × ℤ) → ℚ → Option ℤ
  | [], pm => if 500.4 < pm then some 500 else none
  | (lo, hi, ilo, ihi) :: rest, pm =>
    if lo ≤ pm ∧ pm ≤ hi then some (pyRound (aqiLinear lo hi ilo ihi pm))
    else aqiFromBreakpoints rest pm

/-- Embedding of `compute_aqi` of src/data/process_data.py: `NaN` input propagates, other
pollutant arguments are unused in the source and omitted here. -/
def compute_aqi (pm25 : Option ℚ) : Option ℤ :=
  match pm25 with
  | none => none
  | some pm => aqiFromBreakpoints breakpoints pm

/-! ### Missing-Value Resolver, temporal phase
(`fill_missing_values`, src/data/process_data.py lines 141-158): per city and
per pollutant column the source runs
`Series.interpolate(method="linear", limit=2)`, embedded below. -/

/-- Index (strictly below `i`) and value of the nearest non-missing entry to
the left of position `i`, if any. -/
def findPrev (xs : List (Option ℚ)) : ℕ → Option (ℕ × ℚ)
  | 0 => none
  | j + 1 =>
    match xs.getD j none with
    | some v => some (j, v)
    | none => findPrev xs j

/-- Offset and value of the first non-missing entry of a list, if any. -/
def firstKnown : List (Option ℚ) → Option (ℕ × ℚ)
  | [] => none
  | some v :: _ => some (0, v)
  | none :: rest => (firstKnown rest).map (fun p => (p.1 + 1, p.2))

/-- Index (strictly above `i`) and value of the nearest non-missing entry to
the right of position `i`, if any. -/
def findNext (xs : List (Option ℚ)) (i : ℕ) : Option (ℕ × ℚ) :=
  (firstKnown (xs.drop (i + 1))).map (fun p => (i + 1 + p.1, p.2))

/-- Value at position `i` after `interpolate(method="linear", limit=2)`:
a present value is kept; a missing value whose two immediate predecessors are
also missing is beyond the fill limit and stays missing (pandas fills at most
`limit` leading entries of each run of missing values, in the forward
direction); otherwise the value is linearly interpolated between the nearest
known neighbours, clamping to the last known value when there is no right
neighbour (`np.interp` behaviour) and staying missing when there is no left
neighbour. -/
def interpAt (xs : List (Option ℚ)) (i : ℕ) : Option ℚ :=
  match xs.getD i none with
  | some v => some v
  | none =>
    if 2 ≤ i ∧ xs.getD (i - 1) none = none ∧ xs.getD (i - 2) none = none then none
    else
      match findPrev xs i, findNext xs i with
      | some (p, a), some (n, b) =>
        some (a + (b - a) * (((i : ℚ) - (p : ℚ)) / ((n : ℚ) - (p : ℚ))))
      | some (_, a), none => some a
      | none, _ => none

/-- One pollutant series after `Series.interpolate(method="linear", limit=2)`. -/
def interpolateLimit2 (xs : List (Option ℚ)) : List (Option ℚ) :=
  (List.range xs.length).map (interpAt xs)

/-- One city's monthly pollutant series, in time order (the rows selected by
`df["city"] == city`, one list per pollutant column). -/
structure CitySeries where
  city : String
  pm25 : List (Option ℚ)
  pm10 : List (Option ℚ)
  no2 : List (Option ℚ)
  o3 : List (Option ℚ)
deriving DecidableEq

/-- Embedding of `fill_missing_values` of src/data/process_data.py: per-city, per-column
linear interpolation with `limit=2`; interpolation never crosses cities. -/
def fill_missing_values (df : List CitySeries) : List CitySeries :=
  df.map (fun c =>
    { c with
      pm25 := interpolateLimit2 c.pm25
      pm10 := interpolateLimit2 c.pm10
      no2 := interpolateLimit2 c.no2
      o3 := interpolateLimit2 c.o3 })

/-! ### Summary table and its imputation phase
(`generate_summary_csv`, src/data/process_data.py lines 274-288). -/

/-- One row of the city summary table, restricted to the four clustering
feature columns (the columns the claims concern). -/
structure SummaryRow where
  city : String
  pm25 : Option ℚ
  green_space_pct : Option ℚ
  population_density : Option ℚ
  traffic_intensity : Option ℚ
deriving DecidableEq

/-- Mean of a list of rationals (division by zero yields 0 for `[]`, callers
guard emptiness). -/
def meanQ (l : List ℚ) : ℚ := l.sum / l.length

/-- Pandas `Series.median()` over the non-missing values: middle element of
the sorted list, or the average of the two middle elements; `none` when the
list is empty (pandas returns `NaN`). -/
def medianQ (l : List ℚ) : Option ℚ :=
  let s := List.insertionSort (fun x y : ℚ => x ≤ y) l
  let n := l.length
  if n = 0 then none
  else if n % 2 = 1 then some (s.getD (n / 2) 0)
  else some ((s.getD (n / 2 - 1) 0 + s.getD (n / 2) 0) / 2)

/-- One iteration of the imputation loop of `generate_summary_csv`: if the
column's median over non-missing entries is defined, fill every missing entry
of that column with it (`fillna(median)`); otherwise leave the column as it
is (the `pd.notna(median_val)` guard skips the fill silently). -/
def fillColumn (get : SummaryRow → Option ℚ) (set : SummaryRow → ℚ → SummaryRow)
    (rows : List SummaryRow) : List SummaryRow :=
  match medianQ (rows.filterMap get) with
  | none => rows
  | some m => rows.map (fun r => set r ((get r).getD m))

/-- The median-imputation phase of `generate_summary_csv` restricted to the
four clustering feature columns, applied in the source's `numeric_cols`
order (`pm25`, …, `population_density`, `green_space_pct`,
`traffic_intensity`). -/
def generate_summary_impute (rows : List SummaryRow) : List SummaryRow :=
  let r1 := fillColumn (fun r => r.pm25) (fun r v => { r with pm25 := some v }) rows
  let r2 := fillColumn (fun r => r.population_density)
    (fun r v => { r with population_density := some v }) r1
  let r3 := fillColumn (fun r => r.green_space_pct)
    (fun r v => { r with green_space_pct := some v }) r2
  fillColumn (fun r => r.traffic_intensity)
    (fun r v => { r with traffic_intensity := some v }) r3

/-! ### Cluster Engine (`perform_clustering`, src/models/clustering.py). -/

/-- One city's four-dimensional clustering feature vector
(`pm25`, `green_space_pct`, `population_density`, `traffic_intensity`). -/
structure Feat where
  pm25 : ℚ
  green : ℚ
  density : ℚ
  traffic : ℚ
deriving DecidableEq

/-- Feature extraction `df[feature_cols].values` for one row; only applied
after the missing-value check has passed. -/
def featOf (r : SummaryRow) : Feat :=
  ⟨r.pm25.getD 0, r.green_space_pct.getD 0, r.population_density.getD 0,
    r.traffic_intensity.getD 0⟩

/-- Does a summary row have a missing clustering feature?  sklearn's
`KMeans.fit` raises `ValueError: Input contains NaN` on such input. -/
def hasMissingRow (r : SummaryRow) : Bool :=
  r.pm25.isNone || r.green_space_pct.isNone || r.population_density.isNone ||
    r.traffic_intensity.isNone

/-- Population variance of a list of rationals (`StandardScaler` uses
`ddof=0`). -/
def varQ (l : List ℚ) : ℚ := meanQ (l.map (fun x => x * x)) - meanQ l * meanQ l

/-- Equality of rationals decided through the order (equivalent to `=`,
evaluation-friendly). -/
def ratEqB (a b : ℚ) : Bool := decide (a ≤ b) && decide (b ≤ a)

/-- Per-feature inverse-variance weights realising `StandardScaler`
standardisation inside squared distances; a zero-variance feature gets
weight 1 (sklearn substitutes scale 1 for a zero standard deviation). -/
def invVarWeights (X : List Feat) : Feat :=
  let w := fun l : List ℚ => if ratEqB (varQ l) 0 then 1 else 1 / varQ l
  ⟨w (X.map (fun x => x.pm25)), w (X.map (fun x => x.green)),
    w (X.map (fun x => x.density)), w (X.map (fun x => x.traffic))⟩

/-- Squared Euclidean distance between standardised feature vectors,
computed as an inverse-variance weighted squared distance on raw features. -/
def wdist (w x y : Feat) : ℚ :=
  w.pm25 * ((x.pm25 - y.pm25) * (x.pm25 - y.pm25)) +
    w.green * ((x.green - y.green) * (x.green - y.green)) +
    w.density * ((x.density - y.density) * (x.density - y.density)) +
    w.traffic * ((x.traffic - y.traffic) * (x.traffic - y.traffic))

/-- Index of the nearest centre (ties to the lowest index), accumulator form. -/
def nearestIdxAux (w x : Feat) : List Feat → ℕ → ℕ → ℚ → ℕ
  | [], _, best, _ => best
  | c :: rest, i, best, bestd =>
    let d := wdist w x c
    if d < bestd then nearestIdxAux w x rest (i + 1) i d
    else nearestIdxAux w x rest (i + 1) best bestd

/-- Index of the nearest centre to `x` among `cs` (ties to the lowest index). -/
def nearestIdx (w : Feat) (cs : List Feat) (x : Feat) : ℕ :=
  match cs with
  | [] => 0
  | c :: rest => nearestIdxAux w x rest 1 0 (wdist w x c)

/-- Label assignment step of Lloyd's algorithm. -/
def assignAll (w : Feat) (cs : List Feat) (X : List Feat) : List ℕ :=
  X.map (nearestIdx w cs)

/-- Componentwise mean of a list of feature vectors. -/
def meanFeat (pts : List Feat) : Feat :=
  ⟨meanQ (pts.map (fun x => x.pm25)), meanQ (pts.map (fun x => x.green)),
    meanQ (pts.map (fun x => x.density)), meanQ (pts.map (fun x => x.traffic))⟩

/-- Centre update step of Lloyd's algorithm; an empty cluster keeps its old
centre. -/
def updateCenters (w : Feat) (k : ℕ) (X : List Feat) (cs : List Feat) : List Feat :=
  let labels := assignAll w cs X
  (List.range k).map (fun i =>
    let pts := (X.zip labels).filterMap (fun p => if p.2 = i then some p.1 else none)
    if pts = [] then cs.getD i ⟨0, 0, 0, 0⟩ else meanFeat pts)

/-- Componentwise equality of feature vectors, decided through the order. -/
def featEqB (x y : Feat) : Bool :=
  ratEqB x.pm25 y.pm25 && ratEqB x.green y.green && ratEqB x.density y.density &&
    ratEqB x.traffic y.traffic

/-- Componentwise equality of centre lists, decided through the order. -/
def featListEqB : List Feat → List Feat → Bool
  | [], [] => true
  | x :: xs, y :: ys => featEqB x y && featListEqB xs ys
  | _, _ => false

/-- Lloyd iteration with fuel (`max_iter=300` in sklearn), stopping early on
convergence. -/
def lloydLoop (w : Feat) (k : ℕ) (X : List Feat) : ℕ → List Feat → List Feat
  | 0, cs => cs
  | fuel + 1, cs =>
    let cs2 := updateCenters w k X cs
    if featListEqB cs2 cs then cs else lloydLoop w k X fuel cs2

/-- Within-cluster sum of squared distances to the assigned centres. -/
def inertiaOf (w : Feat) (cs : List Feat) (X : List Feat) : ℚ :=
  (X.map (fun x => wdist w x (cs.getD (nearestIdx w cs x) ⟨0, 0, 0, 0⟩))).sum

/-- Smallest distance from `x` to any chosen centre. -/
def minDistToCenters (w : Feat) (cs : List Feat) (x : Feat) : ℚ :=
  match cs with
  | [] => 0
  | c :: rest => rest.foldl (fun acc c2 => min acc (wdist w x c2)) (wdist w x c)

/-- Index of the point farthest from the chosen centres (ties to the lowest
index), accumulator form. -/
def farthestIdxAux (w : Feat) (cs : List Feat) : List Feat → ℕ → ℕ → ℚ → ℕ
  | [], _, best, _ => best
  | x :: rest, i, best, bestd =>
    let d := minDistToCenters w cs x
    if bestd < d then farthestIdxAux w cs rest (i + 1) i d
    else farthestIdxAux w cs rest (i + 1) best bestd

/-- Index of the point of `X` farthest from the chosen centres. -/
def farthestIdx (w : Feat) (cs : List Feat) (X : List Feat) : ℕ :=
  match X with
  | [] => 0
  | x :: rest => farthestIdxAux w cs rest 1 0 (minDistToCenters w cs x)

/-- Greedily add `m` more centres, each the data point farthest from the
centres chosen so far (a deterministic k-means++-style initialisation). -/
def growCenters (w : Feat) (X : List Feat) : ℕ → List Feat → List Feat
  | 0, cs => cs
  | m + 1, cs => growCenters w X m (cs ++ [X.getD (farthestIdx w cs X) ⟨0, 0, 0, 0⟩])

/-- Deterministic initial centres: a seeded start point, then farthest-point
insertion up to `k` centres. -/
def initCenters (w : Feat) (X : List Feat) (start k : ℕ) : List Feat :=
  growCenters w X (k - 1) [X.getD (start % max X.length 1) ⟨0, 0, 0, 0⟩]

/-- Deterministic linear congruential pseudo-random step, driven by the fixed
`random_state=42` seed of the source. -/
def lcg (s : ℕ) : ℕ := (s * 1103515245 + 12345) % 2147483648

/-- One full K-means run from a given start point: Lloyd iteration to
convergence (fuel 300), returning the labels and the final inertia. -/
def kmeansRun (w : Feat) (k : ℕ) (X : List Feat) (start : ℕ) : List ℕ × ℚ :=
  let cs := lloydLoop w k X 300 (initCenters w X start k)
  (assignAll w cs X, inertiaOf w cs X)

/-- Remaining best-of-`n_init` restarts, keeping the strictly lowest inertia
(first found wins ties). -/
def kmeansBest (w : Feat) (k : ℕ) (X : List Feat) : ℕ → ℕ → List ℕ × ℚ → List ℕ
  | 0, _, best => best.1
  | r + 1, s, best =>
    let s2 := lcg s
    let run := kmeansRun w k X (s2 % max X.length 1)
    kmeansBest w k X r s2 (if run.2 < best.2 then run else best)

/-- The embedded `KMeans(n_clusters=k, random_state=seed, n_init=nInit)
.fit_predict`: deterministic seeded restarts, best inertia kept. -/
def kmeansFit (seed nInit k : ℕ) (w : Feat) (X : List Feat) : List ℕ :=
  match nInit with
  | 0 => []
  | m + 1 =>
    let s1 := lcg seed
    kmeansBest w k X m s1 (kmeansRun w k X (s1 % max X.length 1))

/-! ### Cluster characterisation, naming and canonicalisation
(src/models/clustering.py lines 129-172). -/

/-- Pandas `Series.mean()`: mean of the values, `NaN` (`none`) for an empty
series. -/
def meanOpt (l : List ℚ) : Option ℚ :=
  if l = [] then none else some (meanQ l)

/-- Python `x < c` where `x` may be `NaN`: any comparison with `NaN` is
false. -/
def oltB (x : Option ℚ) (c : ℚ) : Bool :=
  match x with
  | some v => decide (v < c)
  | none => false

/-- Python `x > c` where `x` may be `NaN`. -/
def ogtB (x : Option ℚ) (c : ℚ) : Bool :=
  match x with
  | some v => decide (c < v)
  | none => false

/-- Cluster naming rules of `perform_clustering` (lines 146-157), evaluated
in source order, first match wins. -/
def clusterName (pm green dens : Option ℚ) : String :=
  if oltB pm 15 && ogtB green 40 then "Clean & Green"
  else if ogtB pm 40 then "Industrial/Polluted"
  else if ogtB dens 8000 then "High Density Urban"
  else "Moderate Urban"

/-- Cluster descriptions paired with `clusterName`. -/
def clusterDescription (pm green dens : Option ℚ) : String :=
  if oltB pm 15 && ogtB green 40 then "Low pollution, high green space"
  else if ogtB pm 40 then "High pollution levels"
  else if ogtB dens 8000 then "Dense urban areas"
  else "Balanced environmental profile"

/-- One entry of `cluster_info`.  `orig_id` records the pre-canonicalisation
K-means label of the cluster (the key of the source's `old_to_new` dict);
`cluster_id` is overwritten with the final canonical id, as in the source.
`member_pm25` keeps the member cities' PM2.5 values so that the mean PM2.5
of the cluster is expressible. -/
structure ClusterInfo where
  cluster_id : ℕ
  orig_id : ℕ
  cities : List String
  member_pm25 : List ℚ
  avg_pm25 : Option ℚ
  avg_green_space : Option ℚ
  avg_density : Option ℚ
  avg_traffic : Option ℚ
  name : String
  description : String
deriving DecidableEq

/-- Cluster characterisation loop (`for i in range(n_clusters)`): member
rows, per-cluster means (pandas mean skips missing values; `NaN` for an
empty cluster), and the semantic name. -/
def mkClusterInfos (k : ℕ) (rows : List (SummaryRow × ℕ)) : List ClusterInfo :=
  (List.range k).map (fun i =>
    let members := rows.filterMap (fun p => if p.2 = i then some p.1 else none)
    let pm := members.filterMap (fun r => r.pm25)
    let gr := members.filterMap (fun r => r.green_space_pct)
    let de := members.filterMap (fun r => r.population_density)
    let tr := members.filterMap (fun r => r.traffic_intensity)
    { cluster_id := i
      orig_id := i
      cities := members.map (fun r => r.city)
      member_pm25 := pm
      avg_pm25 := meanOpt pm
      avg_green_space := meanOpt gr
      avg_density := meanOpt de
      avg_traffic := meanOpt tr
      name := clusterName (meanOpt pm) (meanOpt gr) (meanOpt de)
      description := clusterDescription (meanOpt pm) (meanOpt gr) (meanOpt de) })

/-- Sort key comparison of `sorted(cluster_info, key=lambda x: x["avg_pm25"])`
on possibly-missing means.  Both means are defined in every run that reaches
this point (sklearn K-means never returns an empty cluster); the `none`
branches are arbitrary tie-offs needed only for totality. -/
def avgLeB (x y : Option ℚ) : Bool :=
  match x, y with
  | some a, some b => decide (a ≤ b)
  | none, _ => true
  | some _, none => false

/-- The sort relation on `ClusterInfo` used for canonicalisation. -/
def infoLe (a b : ClusterInfo) : Prop :=
  avgLeB a.avg_pm25 b.avg_pm25 = true

instance : DecidableRel infoLe :=
  fun a b => inferInstanceAs (Decidable (avgLeB a.avg_pm25 b.avg_pm25 = true))

/-- The `for i, info in enumerate(cluster_info): info["cluster_id"] = i`
renumbering after the sort. -/
def renumber : ℕ → List ClusterInfo → List ClusterInfo
  | _, [] => []
  | n, x :: xs => { x with cluster_id := n } :: renumber (n + 1) xs

/-- Embedding of `perform_clustering` of src/models/clustering.py: missing-feature check
and city-count check (the `ValueError`s raised by sklearn), seeded K-means
on standardised features, cluster characterisation, stable sort of
`cluster_info` by ascending mean PM2.5 (Python's `sorted` is stable), and
relabelling of both the per-city labels and the info entries. -/
def perform_clustering (df : List SummaryRow) :
    Except String (List (SummaryRow × ℕ) × List ClusterInfo) :=
  let n_clusters := 4
  if df.any hasMissingRow then Except.error "Input contains NaN"
  else if df.length < n_clusters then Except.error "n_samples should be >= n_clusters"
  else
    let X := df.map featOf
    let w := invVarWeights X
    let labels := kmeansFit 42 10 n_clusters w X
    let rows := df.zip labels
    let infos := mkClusterInfos n_clusters rows
    let sortedInfos := List.insertionSort infoLe infos
    let newIds := sortedInfos.map (fun info => info.cluster_id)
    Except.ok (rows.map (fun p => (p.1, newIds.indexOf p.2)), renumber 0 sortedInfos)

/-- Two invocations of the Cluster Engine on the same input, as in two
pipeline runs. -/
def run_twice (df : List SummaryRow) :
    Except String (List (SummaryRow × ℕ) × List ClusterInfo) ×
      Except String (List (SummaryRow × ℕ) × List ClusterInfo) :=
  (perform_clustering df, perform_clustering df)

/-- The post-canonicalisation cluster assignment of each city, in row order;
`none` when clustering raised. -/
def assignmentsOf :
    Except String (List (SummaryRow × ℕ) × List ClusterInfo) → Option (List ℕ)
  | Except.ok (rows, _) => some (rows.map (fun p => p.2))
  | Except.error _ => none

/-- Decidable equality of `Except` results, used to state concrete outcomes
of the Cluster Engine. -/
instance exceptDecEq {ε α : Type} [DecidableEq ε] [DecidableEq α] :
    DecidableEq (Except ε α) := fun x y =>
  match x, y with
  | Except.ok a, Except.ok b =>
    if h : a = b then isTrue (by rw [h]) else isFalse (fun hc => h (Except.ok.inj hc))
  | Except.error a, Except.error b =>
    if h : a = b then isTrue (by rw [h]) else isFalse (fun hc => h (Except.error.inj hc))
  | Except.ok _, Except.error _ => isFalse (fun hc => Except.noConfusion hc)
  | Except.error _, Except.ok _ => isFalse (fun hc => Except.noConfusion hc)

/-- Outcome of `run_clustering` of src/data/process_data.py: on success the
clustered table, on any exception the *unchanged summary table* — the
`except Exception` handler logs the error and returns `summary_df`, so the
pipeline continues either way. -/
inductive RunOut where
  | clustered (rows : List (SummaryRow × ℕ)) (infos : List ClusterInfo) : RunOut
  | unclustered (summary : List SummaryRow) (err : String) : RunOut
deriving DecidableEq

/-- Embedding of `run_clustering` of src/data/process_data.py (lines 309-334): every
exception from `perform_clustering` is caught; the run never halts here. -/
def run_clustering (summary : List SummaryRow) : RunOut :=
  match perform_clustering summary with
  | Except.ok (rows, infos) => RunOut.clustered rows infos
  | Except.error e => RunOut.unclustered summary e

/-! ### Concrete inputs used by witnesses and counterexamples -/

/-- A four-city summary table with well-separated feature vectors. -/
def dfW : List SummaryRow :=
  [⟨"A", some 5, some 50, some 10, some 10⟩,
   ⟨"B", some 20, some 30, some 50, some 60⟩,
   ⟨"C", some 50, some 20, some 90, some 110⟩,
   ⟨"D", some 90, some 10, some 120, some 140⟩]

/-- The per-city canonical cluster assignment the Cluster Engine computes on
`dfW`. -/
def rowsW : List (SummaryRow × ℕ) :=
  [(⟨"A", some 5, some 50, some 10, some 10⟩, 0),
   (⟨"B", some 20, some 30, some 50, some 60⟩, 1),
   (⟨"C", some 50, some 20, some 90, some 110⟩, 2),
   (⟨"D", some 90, some 10, some 120, some 140⟩, 3)]

/-- The canonical cluster information the Cluster Engine computes on `dfW`. -/
def infosW : List ClusterInfo :=
  [⟨0, 1, ["A"], [5], some 5, some 50, some 10, some 10,
    "Clean & Green", "Low pollution, high green space"⟩,
   ⟨1, 2, ["B"], [20], some 20, some 30, some 50, some 60,
    "Moderate Urban", "Balanced environmental profile"⟩,
   ⟨2, 3, ["C"], [50], some 50, some 20, some 90, some 110,
    "Industrial/Polluted", "High pollution levels"⟩,
   ⟨3, 0, ["D"], [90], some 90, some 10, some 120, some 140,
    "Industrial/Polluted", "High pollution levels"⟩]

/-- A four-city summary table whose `pm25` indicator has zero non-missing
values dataset-wide. -/
def dfNoPm : List SummaryRow :=
  [⟨"A", none, some 40, some 30, some 50⟩,
   ⟨"B", none, some 35, some 40, some 60⟩,
   ⟨"C", none, some 30, some 50, some 70⟩,
   ⟨"D", none, some 25, some 60, some 80⟩]

/-- A summary table with only three cities (fewer than K = 4). -/
def dfThree : List SummaryRow :=
  [⟨"A", some 5, some 50, some 10, some 10⟩,
   ⟨"B", some 20, some 30, some 50, some 60⟩,
   ⟨"C", some 50, some 20, some 90, some 110⟩]

end UrbanEnv

namespace UrbanEnv

/-! ### Helper lemmas about `pyRound` -/

theorem pyRound_intCast (n : ℤ) : pyRound (n : ℚ) = n := by
  unfold pyRound
  rw [Int.floor_intCast, sub_self]
  norm_num

theorem pyRound_mono {p q : ℚ} (h : p ≤ q) : pyRound p ≤ pyRound q := by
  have hf : ⌊p⌋ ≤ ⌊q⌋ := Int.floor_mono h
  rcases lt_or_eq_of_le hf with hlt | heq
  · have h1 : pyRound p ≤ ⌊p⌋ + 1 := by unfold pyRound; split_ifs <;> omega
    have h2 : ⌊q⌋ ≤ pyRound q := by unfold pyRound; split_ifs <;> omega
    omega
  · unfold pyRound
    rw [← heq]
    split_ifs <;> first | omega | (exfalso; linarith)

theorem pyRound_le_intCast {q : ℚ} {n : ℤ} (h : q ≤ (n : ℚ)) : pyRound q ≤ n := by
  have := pyRound_mono h
  rwa [pyRound_intCast] at this

theorem intCast_le_pyRound {q : ℚ} {n : ℤ} (h : (n : ℚ) ≤ q) : n ≤ pyRound q := by
  have := pyRound_mono h
  rwa [pyRound_intCast] at this

/-- Case analysis of a defined `compute_aqi` result: the value lies in one of
the six breakpoint ranges (with the segment's interpolation formula) or above
500.4 (clamped). -/
theorem compute_aqi_cases {v : ℚ} {n : ℤ} (h : compute_aqi (some v) = some n) :
    (0 ≤ v ∧ v ≤ 12 ∧ n = pyRound (aqiLinear 0 12 0 50 v)) ∨
    (12.1 ≤ v ∧ v ≤ 35.4 ∧ n = pyRound (aqiLinear 12.1 35.4 51 100 v)) ∨
    (35.5 ≤ v ∧ v ≤ 55.4 ∧ n = pyRound (aqiLinear 35.5 55.4 101 150 v)) ∨
    (55.5 ≤ v ∧ v ≤ 150.4 ∧ n = pyRound (aqiLinear 55.5 150.4 151 200 v)) ∨
    (150.5 ≤ v ∧ v ≤ 250.4 ∧ n = pyRound (aqiLinear 150.5 250.4 201 300 v)) ∨
    (250.5 ≤ v ∧ v ≤ 500.4 ∧ n = pyRound (aqiLinear 250.5 500.4 301 500 v)) ∨
    (500.4 < v ∧ n = 500) := by
  simp only [compute_aqi, breakpoints, aqiFromBreakpoints] at h
  split_ifs at h with h1 h2 h3 h4 h5 h6 h7
  · exact Or.inl ⟨h1.1, h1.2, (Option.some.inj h).symm⟩
  · exact Or.inr (Or.inl ⟨h2.1, h2.2, (Option.some.inj h).symm⟩)
  · exact Or.inr (Or.inr (Or.inl ⟨h3.1, h3.2, (Option.some.inj h).symm⟩))
  · exact Or.inr (Or.inr (Or.inr (Or.inl ⟨h4.1, h4.2, (Option.some.inj h).symm⟩)))
  · exact Or.inr (Or.inr (Or.inr (Or.inr (Or.inl ⟨h5.1, h5.2, (Option.some.inj h).symm⟩))))
  · exact Or.inr (Or.inr (Or.inr (Or.inr (Or.inr (Or.inl
      ⟨h6.1, h6.2, (Option.some.inj h).symm⟩)))))
  · exact Or.inr (Or.inr (Or.inr (Or.inr (Or.inr (Or.inr
      ⟨h7, (Option.some.inj h).symm⟩)))))

end UrbanEnv

namespace UrbanEnv

/-- C7: the AQI calculator satisfies `AQI(0) = 0`, `AQI(12.0) = 50`, computes
`AQI(12.1) = 51` via the second breakpoint segment, and on any value inside a
breakpoint range `[lo, hi]` mapped to `[ilo, ihi]` returns
`((ihi - ilo)/(hi - lo)) * (v - lo) + ilo` rounded to the nearest integer
(Python `round`, ties to even). -/
theorem aqi_boundaries_and_segment_formula :
    compute_aqi (some 0) = some 0 ∧
    compute_aqi (some 12) = some 50 ∧
    compute_aqi (some 12.1) = some 51 ∧
    ∀ v lo hi : ℚ, ∀ ilo ihi : ℤ, (lo, hi, ilo, ihi) ∈ breakpoints →
      lo ≤ v → v ≤ hi →
      compute_aqi (some v) = some (pyRound (aqiLinear lo hi ilo ihi v)) := by
  refine ⟨by with_unfolding_all decide, by with_unfolding_all decide,
    by with_unfolding_all decide, ?_⟩
  intro v lo hi ilo ihi hmem hlo hhi
  simp only [breakpoints, List.mem_cons, List.not_mem_nil, or_false,
    Prod.mk.injEq] at hmem
  simp only [compute_aqi, breakpoints, aqiFromBreakpoints]
  rcases hmem with ⟨rfl, rfl, rfl, rfl⟩ | ⟨rfl, rfl, rfl, rfl⟩ | ⟨rfl, rfl, rfl, rfl⟩ |
    ⟨rfl, rfl, rfl, rfl⟩ | ⟨rfl, rfl, rfl, rfl⟩ | ⟨rfl, rfl, rfl, rfl⟩
  · rw [if_pos ⟨hlo, hhi⟩]
  · rw [if_neg (by rintro ⟨a1, a2⟩; linarith), if_pos ⟨hlo, hhi⟩]
  · rw [if_neg (by rintro ⟨a1, a2⟩; linarith), if_neg (by rintro ⟨a1, a2⟩; linarith),
      if_pos ⟨hlo, hhi⟩]
  · rw [if_neg (by rintro ⟨a1, a2⟩; linarith), if_neg (by rintro ⟨a1, a2⟩; linarith),
      if_neg (by rintro ⟨a1, a2⟩; linarith), if_pos ⟨hlo, hhi⟩]
  · rw [if_neg (by rintro ⟨a1, a2⟩; linarith), if_neg (by rintro ⟨a1, a2⟩; linarith),
      if_neg (by rintro ⟨a1, a2⟩; linarith), if_neg (by rintro ⟨a1, a2⟩; linarith),
      if_pos ⟨hlo, hhi⟩]
  · rw [if_neg (by rintro ⟨a1, a2⟩; linarith), if_neg (by rintro ⟨a1, a2⟩; linarith),
      if_neg (by rintro ⟨a1, a2⟩; linarith), if_neg (by rintro ⟨a1, a2⟩; linarith),
      if_neg (by rintro ⟨a1, a2⟩; linarith), if_pos ⟨hlo, hhi⟩]

/-- Witness for C7: the segment formula instantiated on the second breakpoint
range at `v = 20`. -/
theorem aqi_boundaries_and_segment_formula_witness :
    compute_aqi (some 20) = some (pyRound (aqiLinear 12.1 35.4 51 100 20)) :=
  aqi_boundaries_and_segment_formula.2.2.2 20 12.1 35.4 51 100
    (by with_unfolding_all decide) (by with_unfolding_all decide)
    (by with_unfolding_all decide)

/-- C10: `compute_aqi` is partial on its non-missing domain: every value
strictly inside a gap between two consecutive breakpoint ranges, and every
negative value, yields a missing result; only values above 500.4 are clamped
to 500. -/
theorem aqi_gaps_undefined_and_clamp :
    (∀ v : ℚ,
      v < 0 ∨ (12 < v ∧ v < 12.1) ∨ (35.4 < v ∧ v < 35.5) ∨ (55.4 < v ∧ v < 55.5) ∨
        (150.4 < v ∧ v < 150.5) ∨ (250.4 < v ∧ v < 250.5) →
      compute_aqi (some v) = none) ∧
    ∀ v : ℚ, 500.4 < v → compute_aqi (some v) = some 500 := by
  constructor
  · intro v hv
    simp only [compute_aqi, breakpoints, aqiFromBreakpoints]
    rcases hv with h | ⟨h1, h2⟩ | ⟨h1, h2⟩ | ⟨h1, h2⟩ | ⟨h1, h2⟩ | ⟨h1, h2⟩ <;>
      rw [if_neg (by rintro ⟨a1, a2⟩; linarith), if_neg (by rintro ⟨a1, a2⟩; linarith),
        if_neg (by rintro ⟨a1, a2⟩; linarith), if_neg (by rintro ⟨a1, a2⟩; linarith),
        if_neg (by rintro ⟨a1, a2⟩; linarith), if_neg (by rintro ⟨a1, a2⟩; linarith),
        if_neg (by intro a1; linarith)]
  · intro v hv
    simp only [compute_aqi, breakpoints, aqiFromBreakpoints]
    rw [if_neg (by rintro ⟨a1, a2⟩; linarith), if_neg (by rintro ⟨a1, a2⟩; linarith),
      if_neg (by rintro ⟨a1, a2⟩; linarith), if_neg (by rintro ⟨a1, a2⟩; linarith),
      if_neg (by rintro ⟨a1, a2⟩; linarith), if_neg (by rintro ⟨a1, a2⟩; linarith),
      if_pos hv]

/-- Witness for C10: `12.05` sits in the gap `(12, 12.1)` and gets no index;
`600` is above `500.4` and is clamped to `500`. -/
theorem aqi_gaps_undefined_and_clamp_witness :
    compute_aqi (some 12.05) = none ∧ compute_aqi (some 600) = some 500 :=
  ⟨aqi_gaps_undefined_and_clamp.1 12.05 (by with_unfolding_all decide),
    aqi_gaps_undefined_and_clamp.2 600 (by with_unfolding_all decide)⟩

/-- Counterexample to C8 as stated: for the non-missing inputs
`a = 12.02 < b = 13`, `AQI(a)` is `NaN` (the gap between the first two
breakpoint ranges), so `AQI(a) ≤ AQI(b)` fails — there are no defined index
values to compare (a comparison against `NaN` is false in the source's
float semantics). -/
theorem aqi_monotonicity_counterexample :
    (12.02 : ℚ) < 13 ∧
    ¬ ∃ x y : ℤ, compute_aqi (some 12.02) = some x ∧
      compute_aqi (some 13) = some y ∧ x ≤ y := by
  refine ⟨by with_unfolding_all decide, ?_⟩
  rintro ⟨x, y, hx, hy, hxy⟩
  have hnone : compute_aqi (some 12.02) = none := by with_unfolding_all decide
  rw [hnone] at hx
  exact Option.noConfusion hx

/-- C8 amended: the AQI calculator is monotone on the inputs where it is
defined — whenever `a < b` and both `compute_aqi a` and `compute_aqi b`
return index values, the indices are ordered. -/
theorem aqi_monotone_on_defined {a b : ℚ} {x y : ℤ} (hab : a < b)
    (ha : compute_aqi (some a) = some x) (hb : compute_aqi (some b) = some y) :
    x ≤ y := by
  rcases compute_aqi_cases ha with
    ⟨ha1, ha2, rfl⟩ | ⟨ha1, ha2, rfl⟩ | ⟨ha1, ha2, rfl⟩ | ⟨ha1, ha2, rfl⟩ |
    ⟨ha1, ha2, rfl⟩ | ⟨ha1, ha2, rfl⟩ | ⟨ha1, rfl⟩ <;>
  rcases compute_aqi_cases hb with
    ⟨hb1, hb2, rfl⟩ | ⟨hb1, hb2, rfl⟩ | ⟨hb1, hb2, rfl⟩ | ⟨hb1, hb2, rfl⟩ |
    ⟨hb1, hb2, rfl⟩ | ⟨hb1, hb2, rfl⟩ | ⟨hb1, rfl⟩ <;>
  first
    | exact le_refl _
    | exact absurd hab (by linarith)
    | exact pyRound_mono (by unfold aqiLinear; push_cast; linarith)
    | exact pyRound_le_intCast (by unfold aqiLinear; push_cast; linarith)

/-- Witness for C8 amended: `AQI(5) = 21 ≤ 68 = AQI(20)`. -/
theorem aqi_monotone_on_defined_witness :
    (5 : ℚ) < 20 ∧ compute_aqi (some 5) = some 21 ∧
      compute_aqi (some 20) = some 68 ∧ (21 : ℤ) ≤ 68 :=
  ⟨by with_unfolding_all decide, by with_unfolding_all decide,
    by with_unfolding_all decide,
    @aqi_monotone_on_defined 5 20 21 68 (by with_unfolding_all decide)
      (by with_unfolding_all decide) (by with_unfolding_all decide)⟩

end UrbanEnv

namespace UrbanEnv

/-! ### Helper lemmas about the interpolation embedding -/

theorem getD_some_lt {xs : List (Option ℚ)} {i : ℕ} {a : ℚ}
    (h : xs.getD i none = some a) : i < xs.length := by
  by_contra hle
  rw [List.getD_eq_getElem?_getD, List.getElem?_eq_none (by omega)] at h
  exact Option.noConfusion h

theorem getD_eq_getElem {xs : List (Option ℚ)} {i : ℕ} (h : i < xs.length) :
    xs.getD i none = xs[i] := by
  rw [List.getD_eq_getElem?_getD, List.getElem?_eq_getElem h]
  rfl

theorem interpolateLimit2_length (xs : List (Option ℚ)) :
    (interpolateLimit2 xs).length = xs.length := by
  simp [interpolateLimit2]

theorem interpolateLimit2_getD {xs : List (Option ℚ)} {i : ℕ} (h : i < xs.length) :
    (interpolateLimit2 xs).getD i none = interpAt xs i := by
  unfold interpolateLimit2
  rw [List.getD_eq_getElem?_getD, List.getElem?_map, List.getElem?_range h]
  rfl

theorem findPrev_eq_none {xs : List (Option ℚ)} : ∀ {i : ℕ},
    (∀ j, j < i → xs.getD j none = none) → findPrev xs i = none := by
  intro i
  induction i with
  | zero => intro _; rfl
  | succ j ih =>
    intro h
    unfold findPrev
    rw [h j (Nat.lt_succ_self j)]
    exact ih (fun m hm => h m (Nat.lt_succ_of_lt hm))

theorem firstKnown_eq_none : ∀ {l : List (Option ℚ)}, (∀ x ∈ l, x = none) →
    firstKnown l = none := by
  intro l
  induction l with
  | nil => intro _; rfl
  | cons y ys ih =>
    intro h
    have hy : y = none := h y (List.mem_cons_self y ys)
    subst hy
    simp only [firstKnown]
    rw [ih (fun x hx => h x (List.mem_cons_of_mem _ hx))]
    rfl

theorem getD_all_none_mem (xs : List (Option ℚ)) (h : ∀ j, xs.getD j none = none) :
    ∀ x ∈ xs, x = none := by
  intro x hx
  obtain ⟨n, hn⟩ := List.mem_iff_getElem?.mp hx
  have h2 := h n
  rw [List.getD_eq_getElem?_getD, hn] at h2
  simpa using h2

theorem drop_forall_none (xs : List (Option ℚ)) : ∀ (m : ℕ),
    (∀ j, m ≤ j → xs.getD j none = none) → ∀ x ∈ xs.drop m, x = none := by
  induction xs with
  | nil => intro m h x hx; simp at hx
  | cons y ys ih =>
    intro m h x hx
    cases m with
    | zero => exact getD_all_none_mem _ (fun j => h j (Nat.zero_le j)) x hx
    | succ m => exact ih m (fun j hj => h (j + 1) (Nat.succ_le_succ hj)) x hx

theorem findNext_eq_none (xs : List (Option ℚ)) (i : ℕ)
    (h : ∀ j, i < j → xs.getD j none = none) : findNext xs i = none := by
  unfold findNext
  rw [firstKnown_eq_none (drop_forall_none xs (i + 1) (fun j hj => h j (by omega)))]
  rfl

theorem findNext_eq_of (xs : List (Option ℚ)) (b : ℚ) : ∀ (d i n : ℕ), n - i = d + 1 →
    i < n → xs.getD n none = some b →
    (∀ j, i < j → j < n → xs.getD j none = none) →
    findNext xs i = some (n, b) := by
  intro d
  induction d with
  | zero =>
    intro i n hd hin hn hmid
    have hn1 : n = i + 1 := by omega
    subst hn1
    have hlen : i + 1 < xs.length := getD_some_lt hn
    have hx : xs[i + 1] = some b := by rw [← getD_eq_getElem hlen]; exact hn
    unfold findNext
    rw [List.drop_eq_getElem_cons hlen, hx]
    simp [firstKnown]
  | succ d ih =>
    intro i n hd hin hn hmid
    have hi1n : i + 1 < n := by omega
    have hnext := ih (i + 1) n (by omega) hi1n hn (fun j hj1 hj2 => hmid j (by omega) hj2)
    have hlen : i + 1 < xs.length := by
      have := getD_some_lt hn
      omega
    have hmi : xs[i + 1] = none := by
      have := hmid (i + 1) (by omega) hi1n
      rwa [getD_eq_getElem hlen] at this
    unfold findNext at hnext ⊢
    rw [List.drop_eq_getElem_cons hlen, hmi]
    simp only [firstKnown]
    rcases hfk : firstKnown (xs.drop (i + 1 + 1)) with _ | ⟨m, c⟩
    · rw [hfk] at hnext
      simp at hnext
    · rw [hfk] at hnext
      simp only [Option.map_some'] at hnext ⊢
      rw [Option.some.injEq, Prod.mk.injEq] at hnext
      obtain ⟨he1, he2⟩ := hnext
      subst he2
      rw [Option.some.injEq, Prod.mk.injEq]
      exact ⟨by omega, rfl⟩

end UrbanEnv

namespace UrbanEnv

/-- Counterexample to C3 as stated: the claim says a run of 3 or more
consecutive missing points is left entirely unfilled and that no values are
extrapolated beyond the ends of a city's sequence.  Pandas
`interpolate(method="linear", limit=2)` instead fills the first 2 points of
the 3-long interior gap of city A (positions 1 and 2 get the interpolated
values 1 and 2), and fills the trailing missing points of city B with the
last known value 7. -/
theorem interpolation_limit2_counterexample :
    fill_missing_values [⟨"A", [some 0, none, none, none, some 4], [], [], []⟩] =
      [⟨"A", [some 0, some 1, some 2, none, some 4], [], [], []⟩] ∧
    fill_missing_values [⟨"B", [some 7, none, none, none], [], [], []⟩] =
      [⟨"B", [some 7, some 7, some 7, none], [], [], []⟩] := by
  with_unfolding_all decide

/-- C3 amended: in the temporal phase, for each city and pollutant column
(`interpolate(method="linear", limit=2)` applied per city), (i) a run of
exactly 2 consecutive missing points between two known points is filled by
linear interpolation; (ii) the third and later points of a longer run stay
missing (only the first 2 points of a 3+ run are filled); (iii) missing
points before the first known value are left unfilled; (iv) a missing point
directly after the last known value is filled by repeating that value (so
trailing gaps are filled with the last known value, subject to the same
limit), rather than left missing. -/
theorem interpolation_limit2_amended :
    (∀ df : List CitySeries,
      (fill_missing_values df).map (fun c => c.pm25) =
        df.map (fun c => interpolateLimit2 c.pm25)) ∧
    (∀ xs : List (Option ℚ), ∀ p : ℕ, ∀ a b : ℚ,
      xs.getD p none = some a → xs.getD (p + 1) none = none →
      xs.getD (p + 2) none = none → xs.getD (p + 3) none = some b →
      (interpolateLimit2 xs).getD (p + 1) none = some (a + (b - a) / 3) ∧
      (interpolateLimit2 xs).getD (p + 2) none = some (a + (b - a) * 2 / 3)) ∧
    (∀ xs : List (Option ℚ), ∀ i : ℕ, 2 ≤ i →
      xs.getD i none = none → xs.getD (i - 1) none = none →
      xs.getD (i - 2) none = none →
      (interpolateLimit2 xs).getD i none = none) ∧
    (∀ xs : List (Option ℚ), ∀ i : ℕ,
      (∀ j, j ≤ i → xs.getD j none = none) →
      (interpolateLimit2 xs).getD i none = none) ∧
    (∀ xs : List (Option ℚ), ∀ p : ℕ, ∀ a : ℚ,
      p + 1 < xs.length → xs.getD p none = some a →
      (∀ j, p < j → xs.getD j none = none) →
      (interpolateLimit2 xs).getD (p + 1) none = some a) := by
  refine ⟨?_, ?_, ?_, ?_, ?_⟩
  · intro df
    simp only [fill_missing_values, List.map_map]
    rfl
  · intro xs p a b hp h1 h2 h3
    have hlen : p + 3 < xs.length := getD_some_lt h3
    have hprev1 : findPrev xs (p + 1) = some (p, a) := by
      simp only [findPrev, hp]
    have hprev2 : findPrev xs (p + 2) = some (p, a) := by
      simp only [findPrev, h1, hp]
    have hnext1 : findNext xs (p + 1) = some (p + 3, b) :=
      findNext_eq_of xs b 1 (p + 1) (p + 3) (by omega) (by omega) h3
        (fun j hj1 hj2 => by
          have : j = p + 2 := by omega
          subst this
          exact h2)
    have hnext2 : findNext xs (p + 2) = some (p + 3, b) :=
      findNext_eq_of xs b 0 (p + 2) (p + 3) (by omega) (by omega) h3
        (fun j hj1 hj2 => by omega)
    constructor
    · rw [interpolateLimit2_getD (by omega)]
      simp only [interpAt, h1]
      rw [if_neg (by
        rintro ⟨-, c2, -⟩
        rw [Nat.add_sub_cancel] at c2
        rw [hp] at c2
        exact Option.noConfusion c2)]
      rw [hprev1, hnext1]
      push_cast
      ring_nf
    · rw [interpolateLimit2_getD (by omega)]
      simp only [interpAt, h2]
      rw [if_neg (by
        rintro ⟨-, -, c3⟩
        rw [Nat.add_sub_cancel] at c3
        rw [hp] at c3
        exact Option.noConfusion c3)]
      rw [hprev2, hnext2]
      push_cast
      ring_nf
  · intro xs i h2i hi hm1 hm2
    by_cases hil : i < xs.length
    · rw [interpolateLimit2_getD hil]
      simp only [interpAt, hi]
      rw [if_pos ⟨h2i, hm1, hm2⟩]
    · rw [List.getD_eq_getElem?_getD, List.getElem?_eq_none (by
        rw [interpolateLimit2_length]; omega)]
      rfl
  · intro xs i hall
    by_cases hil : i < xs.length
    · rw [interpolateLimit2_getD hil]
      simp only [interpAt, hall i le_rfl]
      split_ifs with hc
      · rfl
      · rw [findPrev_eq_none (fun j hj => hall j (Nat.le_of_lt hj))]
    · rw [List.getD_eq_getElem?_getD, List.getElem?_eq_none (by
        rw [interpolateLimit2_length]; omega)]
      rfl
  · intro xs p a hlen hp hafter
    rw [interpolateLimit2_getD hlen]
    simp only [interpAt, hafter (p + 1) (Nat.lt_succ_self p)]
    rw [if_neg (by
      rintro ⟨-, c2, -⟩
      rw [Nat.add_sub_cancel] at c2
      rw [hp] at c2
      exact Option.noConfusion c2)]
    rw [show findPrev xs (p + 1) = some (p, a) by simp only [findPrev, hp],
      findNext_eq_none xs (p + 1) (fun j hj => hafter j (by omega))]

/-- Witness for C3 amended: the gap of exactly 2 missing points between the
known values 0 and 3 is filled with the interpolated values 1 and 2. -/
theorem interpolation_limit2_amended_witness :
    (interpolateLimit2 [some 0, none, none, some 3]).getD 1 none =
      some (0 + (3 - 0) / 3) ∧
    (interpolateLimit2 [some 0, none, none, some 3]).getD 2 none =
      some (0 + (3 - 0) * 2 / 3) :=
  interpolation_limit2_amended.2.1 [some 0, none, none, some 3] 0 0 3
    (by with_unfolding_all decide) (by with_unfolding_all decide)
    (by with_unfolding_all decide) (by with_unfolding_all decide)

end UrbanEnv

namespace UrbanEnv

/-! ### Helper lemmas about the summary imputation -/

theorem medianQ_ne_none {l : List ℚ} (h : l ≠ []) : medianQ l ≠ none := by
  simp only [medianQ]
  have hn : ¬ l.length = 0 := fun h0 => h (List.length_eq_zero.mp h0)
  rw [if_neg hn]
  split_ifs <;> simp

theorem fillColumn_get_self (get : SummaryRow → Option ℚ)
    (set : SummaryRow → ℚ → SummaryRow) (rows : List SummaryRow)
    (hgs : ∀ r v, get (set r v) = some v)
    (hne : rows.filterMap get ≠ []) :
    ∀ r ∈ fillColumn get set rows, get r ≠ none := by
  intro r hr
  unfold fillColumn at hr
  rcases hm : medianQ (rows.filterMap get) with _ | m
  · exact absurd hm (medianQ_ne_none hne)
  · rw [hm] at hr
    obtain ⟨r0, hr0, rfl⟩ := List.mem_map.mp hr
    simp [hgs]

theorem fillColumn_map_other {β : Type} (get : SummaryRow → Option ℚ)
    (set : SummaryRow → ℚ → SummaryRow) (f : SummaryRow → β)
    (hfs : ∀ r v, f (set r v) = f r) (rows : List SummaryRow) :
    (fillColumn get set rows).map f = rows.map f := by
  unfold fillColumn
  rcases medianQ (rows.filterMap get) with _ | m
  · rfl
  · rw [List.map_map]
    exact List.map_congr_left (fun r hr => hfs r _)

theorem fillColumn_length (get : SummaryRow → Option ℚ)
    (set : SummaryRow → ℚ → SummaryRow) (rows : List SummaryRow) :
    (fillColumn get set rows).length = rows.length := by
  unfold fillColumn
  rcases medianQ (rows.filterMap get) with _ | m
  · rfl
  · simp

theorem all_prop_of_map_eq {rows rows2 : List SummaryRow} (f : SummaryRow → Option ℚ)
    (P : Option ℚ → Prop) (hmap : rows2.map f = rows.map f)
    (h : ∀ r ∈ rows, P (f r)) : ∀ r ∈ rows2, P (f r) := by
  intro r hr
  have hm : f r ∈ rows2.map f := List.mem_map_of_mem f hr
  rw [hmap] at hm
  obtain ⟨r0, hr0, he⟩ := List.mem_map.mp hm
  rw [← he]
  exact h r0 hr0

theorem exists_prop_of_map_eq {rows rows2 : List SummaryRow} (f : SummaryRow → Option ℚ)
    (P : Option ℚ → Prop) (hmap : rows2.map f = rows.map f)
    (h : ∃ r ∈ rows, P (f r)) : ∃ r ∈ rows2, P (f r) := by
  obtain ⟨r, hr, hp⟩ := h
  have hm : f r ∈ rows.map f := List.mem_map_of_mem f hr
  rw [← hmap] at hm
  obtain ⟨r2, hr2, he⟩ := List.mem_map.mp hm
  exact ⟨r2, hr2, by rw [he]; exact hp⟩

theorem filterMap_ne_nil {rows : List SummaryRow} {f : SummaryRow → Option ℚ}
    (h : ∃ r ∈ rows, f r ≠ none) : rows.filterMap f ≠ [] := by
  obtain ⟨r, hr, hne⟩ := h
  intro hnil
  rw [List.filterMap_eq_nil_iff] at hnil
  exact hne (hnil r hr)

end UrbanEnv

namespace UrbanEnv

/-- C4: after the summary-level imputation phase, every city row has no
missing value in any of the four clustering feature columns, provided each
column has at least one non-missing value across cities before imputation. -/
theorem summary_imputation_completeness (rows : List SummaryRow)
    (h1 : ∃ r ∈ rows, r.pm25 ≠ none)
    (h2 : ∃ r ∈ rows, r.green_space_pct ≠ none)
    (h3 : ∃ r ∈ rows, r.population_density ≠ none)
    (h4 : ∃ r ∈ rows, r.traffic_intensity ≠ none) :
    ∀ r ∈ generate_summary_impute rows,
      r.pm25 ≠ none ∧ r.green_space_pct ≠ none ∧
        r.population_density ≠ none ∧ r.traffic_intensity ≠ none := by
  intro r hr
  simp only [generate_summary_impute] at hr
  generalize hR1 : fillColumn (fun r => r.pm25)
    (fun r v => { r with pm25 := some v }) rows = R1 at hr
  generalize hR2 : fillColumn (fun r => r.population_density)
    (fun r v => { r with population_density := some v }) R1 = R2 at hr
  generalize hR3 : fillColumn (fun r => r.green_space_pct)
    (fun r v => { r with green_space_pct := some v }) R2 = R3 at hr
  generalize hR4 : fillColumn (fun r => r.traffic_intensity)
    (fun r v => { r with traffic_intensity := some v }) R3 = R4 at hr
  have apm1 : ∀ x ∈ R1, x.pm25 ≠ none := by
    rw [← hR1]
    exact fillColumn_get_self _ _ rows (fun r v => rfl) (filterMap_ne_nil h1)
  have mpm2 : R2.map (fun x => x.pm25) = R1.map (fun x => x.pm25) := by
    rw [← hR2]; exact fillColumn_map_other _ _ _ (fun r v => by rfl) R1
  have mpm3 : R3.map (fun x => x.pm25) = R2.map (fun x => x.pm25) := by
    rw [← hR3]; exact fillColumn_map_other _ _ _ (fun r v => by rfl) R2
  have mpm4 : R4.map (fun x => x.pm25) = R3.map (fun x => x.pm25) := by
    rw [← hR4]; exact fillColumn_map_other _ _ _ (fun r v => by rfl) R3
  have apm4 : ∀ x ∈ R4, x.pm25 ≠ none :=
    all_prop_of_map_eq _ (fun o => o ≠ none) (mpm4.trans (mpm3.trans mpm2)) apm1
  have mg1 : R1.map (fun x => x.green_space_pct) = rows.map (fun x => x.green_space_pct) := by
    rw [← hR1]; exact fillColumn_map_other _ _ _ (fun r v => by rfl) rows
  have mg2 : R2.map (fun x => x.green_space_pct) = R1.map (fun x => x.green_space_pct) := by
    rw [← hR2]; exact fillColumn_map_other _ _ _ (fun r v => by rfl) R1
  have eg2 : ∃ x ∈ R2, x.green_space_pct ≠ none :=
    exists_prop_of_map_eq _ (fun o => o ≠ none) (mg2.trans mg1) h2
  have ag3 : ∀ x ∈ R3, x.green_space_pct ≠ none := by
    rw [← hR3]
    exact fillColumn_get_self _ _ R2 (fun r v => rfl) (filterMap_ne_nil eg2)
  have mg4 : R4.map (fun x => x.green_space_pct) = R3.map (fun x => x.green_space_pct) := by
    rw [← hR4]; exact fillColumn_map_other _ _ _ (fun r v => by rfl) R3
  have ag4 : ∀ x ∈ R4, x.green_space_pct ≠ none :=
    all_prop_of_map_eq _ (fun o => o ≠ none) mg4 ag3
  have md1 : R1.map (fun x => x.population_density) = rows.map (fun x => x.population_density) := by
    rw [← hR1]; exact fillColumn_map_other _ _ _ (fun r v => by rfl) rows
  have ed1 : ∃ x ∈ R1, x.population_density ≠ none :=
    exists_prop_of_map_eq _ (fun o => o ≠ none) md1 h3
  have ad2 : ∀ x ∈ R2, x.population_density ≠ none := by
    rw [← hR2]
    exact fillColumn_get_self _ _ R1 (fun r v => rfl) (filterMap_ne_nil ed1)
  have md3 : R3.map (fun x => x.population_density) = R2.map (fun x => x.population_density) := by
    rw [← hR3]; exact fillColumn_map_other _ _ _ (fun r v => by rfl) R2
  have md4 : R4.map (fun x => x.population_density) = R3.map (fun x => x.population_density) := by
    rw [← hR4]; exact fillColumn_map_other _ _ _ (fun r v => by rfl) R3
  have ad4 : ∀ x ∈ R4, x.population_density ≠ none :=
    all_prop_of_map_eq _ (fun o => o ≠ none) (md4.trans md3) ad2
  have mt1 : R1.map (fun x => x.traffic_intensity) = rows.map (fun x => x.traffic_intensity) := by
    rw [← hR1]; exact fillColumn_map_other _ _ _ (fun r v => by rfl) rows
  have mt2 : R2.map (fun x => x.traffic_intensity) = R1.map (fun x => x.traffic_intensity) := by
    rw [← hR2]; exact fillColumn_map_other _ _ _ (fun r v => by rfl) R1
  have mt3 : R3.map (fun x => x.traffic_intensity) = R2.map (fun x => x.traffic_intensity) := by
    rw [← hR3]; exact fillColumn_map_other _ _ _ (fun r v => by rfl) R2
  have et3 : ∃ x ∈ R3, x.traffic_intensity ≠ none :=
    exists_prop_of_map_eq _ (fun o => o ≠ none) (mt3.trans (mt2.trans mt1)) h4
  have at4 : ∀ x ∈ R4, x.traffic_intensity ≠ none := by
    rw [← hR4]
    exact fillColumn_get_self _ _ R3 (fun r v => rfl) (filterMap_ne_nil et3)
  exact ⟨apm4 r hr, ag4 r hr, ad4 r hr, at4 r hr⟩

set_option maxRecDepth 2000 in
/-- Witness for C4: city A keeps its complete row after imputation of a
table in which city B misses every feature. -/
theorem summary_imputation_completeness_witness :
    (⟨"A", some 10, some 40, some 30, some 50⟩ : SummaryRow).pm25 ≠ none ∧
      (⟨"A", some 10, some 40, some 30, some 50⟩ : SummaryRow).green_space_pct ≠ none ∧
      (⟨"A", some 10, some 40, some 30, some 50⟩ : SummaryRow).population_density ≠ none ∧
      (⟨"A", some 10, some 40, some 30, some 50⟩ : SummaryRow).traffic_intensity ≠ none :=
  summary_imputation_completeness
    [⟨"A", some 10, some 40, some 30, some 50⟩, ⟨"B", none, none, none, none⟩]
    ⟨⟨"A", some 10, some 40, some 30, some 50⟩, List.mem_cons_self _ _, by decide⟩
    ⟨⟨"A", some 10, some 40, some 30, some 50⟩, List.mem_cons_self _ _, by decide⟩
    ⟨⟨"A", some 10, some 40, some 30, some 50⟩, List.mem_cons_self _ _, by decide⟩
    ⟨⟨"A", some 10, some 40, some 30, some 50⟩, List.mem_cons_self _ _, by decide⟩
    ⟨"A", some 10, some 40, some 30, some 50⟩
    (by
      rw [show generate_summary_impute
            [⟨"A", some 10, some 40, some 30, some 50⟩, ⟨"B", none, none, none, none⟩] =
          [⟨"A", some 10, some 40, some 30, some 50⟩,
            ⟨"B", some 10, some 40, some 30, some 50⟩] from by with_unfolding_all decide]
      exact List.mem_cons_self _ _)

end UrbanEnv

namespace UrbanEnv

theorem generate_summary_impute_length (rows : List SummaryRow) :
    (generate_summary_impute rows).length = rows.length := by
  simp only [generate_summary_impute]
  rw [fillColumn_length, fillColumn_length, fillColumn_length, fillColumn_length]

set_option maxRecDepth 2000 in
/-- Counterexample to C5 as stated: on `dfNoPm` (four cities, `pm25` missing
everywhere) the imputation phase leaves `pm25` entirely missing (the
`pd.notna(median_val)` guard silently skips the column), and the pipeline
does not halt: `run_clustering` catches the clustering error and returns the
un-clustered summary, so execution continues with missing values. -/
theorem allmissing_indicator_counterexample :
    (generate_summary_impute dfNoPm).map (fun r => r.pm25) =
      [none, none, none, none] ∧
    run_clustering (generate_summary_impute dfNoPm) =
      RunOut.unclustered (generate_summary_impute dfNoPm) "Input contains NaN" := by
  with_unfolding_all decide

/-- C5 amended: if an indicator required for clustering has zero non-missing
values dataset-wide, the summary-level imputation silently skips that column,
the Cluster Engine then fails on the missing values, and `run_clustering`
catches the failure and returns the un-clustered summary — the pipeline
continues instead of halting. -/
theorem allmissing_indicator_amended (rows : List SummaryRow) (hne : rows ≠ [])
    (hall : ∀ r ∈ rows, r.pm25 = none) :
    (∀ r ∈ generate_summary_impute rows, r.pm25 = none) ∧
    run_clustering (generate_summary_impute rows) =
      RunOut.unclustered (generate_summary_impute rows) "Input contains NaN" := by
  have hfm : rows.filterMap (fun r => r.pm25) = [] :=
    List.filterMap_eq_nil_iff.mpr hall
  have hmain : ∀ r ∈ generate_summary_impute rows, r.pm25 = none := by
    intro r hr
    simp only [generate_summary_impute] at hr
    generalize hR1 : fillColumn (fun r => r.pm25)
      (fun r v => { r with pm25 := some v }) rows = R1 at hr
    generalize hR2 : fillColumn (fun r => r.population_density)
      (fun r v => { r with population_density := some v }) R1 = R2 at hr
    generalize hR3 : fillColumn (fun r => r.green_space_pct)
      (fun r v => { r with green_space_pct := some v }) R2 = R3 at hr
    generalize hR4 : fillColumn (fun r => r.traffic_intensity)
      (fun r v => { r with traffic_intensity := some v }) R3 = R4 at hr
    have e1 : R1 = rows := by
      rw [← hR1]
      unfold fillColumn
      rw [hfm]
      rfl
    have mpm2 : R2.map (fun x => x.pm25) = R1.map (fun x => x.pm25) := by
      rw [← hR2]; exact fillColumn_map_other _ _ _ (fun r v => by rfl) R1
    have mpm3 : R3.map (fun x => x.pm25) = R2.map (fun x => x.pm25) := by
      rw [← hR3]; exact fillColumn_map_other _ _ _ (fun r v => by rfl) R2
    have mpm4 : R4.map (fun x => x.pm25) = R3.map (fun x => x.pm25) := by
      rw [← hR4]; exact fillColumn_map_other _ _ _ (fun r v => by rfl) R3
    have hchain : R4.map (fun x => x.pm25) = rows.map (fun x => x.pm25) :=
      (mpm4.trans (mpm3.trans mpm2)).trans (by rw [e1])
    exact all_prop_of_map_eq _ (fun o => o = none) hchain hall r hr
  refine ⟨hmain, ?_⟩
  have hlen : generate_summary_impute rows ≠ [] := by
    intro h0
    have h1 : (generate_summary_impute rows).length = 0 := by rw [h0]; rfl
    rw [generate_summary_impute_length] at h1
    exact hne (List.length_eq_zero.mp h1)
  obtain ⟨r0, hr0⟩ := List.exists_mem_of_ne_nil _ hlen
  have hany : (generate_summary_impute rows).any hasMissingRow = true := by
    rw [List.any_eq_true]
    refine ⟨r0, hr0, ?_⟩
    simp [hasMissingRow, hmain r0 hr0]
  unfold run_clustering
  simp only [perform_clustering]
  rw [hany]
  simp

/-- Witness for C5 amended: the concrete all-missing `pm25` table `dfNoPm`. -/
theorem allmissing_indicator_amended_witness :
    run_clustering (generate_summary_impute dfNoPm) =
      RunOut.unclustered (generate_summary_impute dfNoPm) "Input contains NaN" :=
  (allmissing_indicator_amended dfNoPm (by decide) (by decide)).2

/-- Counterexample to C6 as stated: with only three cities the Cluster Engine
does raise an explicit error, but `run_clustering` catches it and returns the
un-clustered summary — the run continues to completion without cluster
assignments instead of halting. -/
theorem too_few_cities_counterexample :
    perform_clustering dfThree = Except.error "n_samples should be >= n_clusters" ∧
    run_clustering dfThree =
      RunOut.unclustered dfThree "n_samples should be >= n_clusters" := by
  with_unfolding_all decide

/-- C6 amended: on fewer than K = 4 cities with complete features the Cluster
Engine rejects the input with an explicit error, but the pipeline does not
halt: `run_clustering` catches the error and continues with the un-clustered
summary. -/
theorem too_few_cities_amended (summary : List SummaryRow)
    (hlen : summary.length < 4)
    (hfeat : ∀ r ∈ summary, hasMissingRow r = false) :
    perform_clustering summary = Except.error "n_samples should be >= n_clusters" ∧
    run_clustering summary =
      RunOut.unclustered summary "n_samples should be >= n_clusters" := by
  have hany : summary.any hasMissingRow = false :=
    List.any_eq_false.mpr (fun x hx => by simp [hfeat x hx])
  have hp : perform_clustering summary =
      Except.error "n_samples should be >= n_clusters" := by
    simp only [perform_clustering]
    rw [hany]
    simp [hlen]
  refine ⟨hp, ?_⟩
  unfold run_clustering
  rw [hp]

/-- Witness for C6 amended: the three-city table `dfThree`. -/
theorem too_few_cities_amended_witness :
    perform_clustering dfThree = Except.error "n_samples should be >= n_clusters" ∧
    run_clustering dfThree =
      RunOut.unclustered dfThree "n_samples should be >= n_clusters" :=
  too_few_cities_amended dfThree (by decide) (by decide)

/-- C2: the Cluster Engine is a pure function of its input once the source's
fixed `random_state=42` seeding is made explicit, so two runs on identical
input produce identical post-canonicalization assignments (and identical
outputs altogether). -/
theorem clustering_two_run_determinism (df : List SummaryRow) :
    assignmentsOf (run_twice df).1 = assignmentsOf (run_twice df).2 ∧
    (run_twice df).1 = (run_twice df).2 :=
  ⟨rfl, rfl⟩

end UrbanEnv

namespace UrbanEnv

/-- C9: the cluster naming rules are evaluated in the source's priority
order with first match winning: `mean PM2.5 < 15 ∧ mean green space > 40`
gives "Clean & Green"; otherwise `mean PM2.5 > 40` gives
"Industrial/Polluted" regardless of green space; otherwise
`mean density > 8000` gives "High Density Urban"; otherwise
"Moderate Urban".  In particular a cluster with means (10, 50) is
"Clean & Green" and one with mean PM2.5 = 50 is "Industrial/Polluted". -/
theorem cluster_naming_rules :
    (∀ p g d : ℚ, p < 15 → g > 40 →
      clusterName (some p) (some g) (some d) = "Clean & Green") ∧
    (∀ p g d : ℚ, ¬(p < 15 ∧ g > 40) → p > 40 →
      clusterName (some p) (some g) (some d) = "Industrial/Polluted") ∧
    (∀ p g d : ℚ, ¬(p < 15 ∧ g > 40) → ¬(p > 40) → d > 8000 →
      clusterName (some p) (some g) (some d) = "High Density Urban") ∧
    (∀ p g d : ℚ, ¬(p < 15 ∧ g > 40) → ¬(p > 40) → ¬(d > 8000) →
      clusterName (some p) (some g) (some d) = "Moderate Urban") ∧
    (∀ d : ℚ, clusterName (some 10) (some 50) (some d) = "Clean & Green") ∧
    (∀ g d : ℚ, clusterName (some 50) (some g) (some d) = "Industrial/Polluted") := by
  refine ⟨?_, ?_, ?_, ?_, ?_, ?_⟩
  · intro p g d h1 h2
    simp [clusterName, oltB, ogtB, h1, h2]
  · intro p g d h0 h2
    have hnp : ¬ (p < 15) := by linarith
    simp [clusterName, oltB, ogtB, hnp, h2]
  · intro p g d h0 hp40 hd
    rcases Classical.em (p < 15) with hp | hp
    · have hg : ¬ (g > 40) := fun hg => h0 ⟨hp, hg⟩
      simp [clusterName, oltB, ogtB, hp, hg, hp40, hd]
    · simp [clusterName, oltB, ogtB, hp, hp40, hd]
  · intro p g d h0 hp40 hd
    rcases Classical.em (p < 15) with hp | hp
    · have hg : ¬ (g > 40) := fun hg => h0 ⟨hp, hg⟩
      simp [clusterName, oltB, ogtB, hp, hg, hp40, hd]
    · simp [clusterName, oltB, ogtB, hp, hp40, hd]
  · intro d
    norm_num [clusterName, oltB, ogtB]
  · intro g d
    norm_num [clusterName, oltB, ogtB]

/-- Witness for C9: one concrete cluster per naming rule. -/
theorem cluster_naming_rules_witness :
    clusterName (some 10) (some 50) (some 100) = "Clean & Green" ∧
    clusterName (some 50) (some 45) (some 100) = "Industrial/Polluted" ∧
    clusterName (some 20) (some 45) (some 9000) = "High Density Urban" ∧
    clusterName (some 20) (some 45) (some 100) = "Moderate Urban" :=
  ⟨cluster_naming_rules.1 10 50 100 (by norm_num) (by norm_num),
   cluster_naming_rules.2.1 50 45 100 (by norm_num) (by norm_num),
   cluster_naming_rules.2.2.1 20 45 9000 (by norm_num) (by norm_num) (by norm_num),
   cluster_naming_rules.2.2.2.1 20 45 100 (by norm_num) (by norm_num) (by norm_num)⟩

end UrbanEnv

namespace UrbanEnv

/-! ### Stability of the canonicalisation sort -/

theorem orderedInsert_pairwise_stable {α : Type} (le : α → α → Prop) [DecidableRel le]
    (k : α → ℚ) (g : α → ℕ) (a : α) :
    ∀ (s : List α),
      (∀ x ∈ a :: s, ∀ y ∈ a :: s, le x y ↔ k x ≤ k y) →
      s.Pairwise (fun x y => k x < k y ∨ (k x = k y ∧ g x < g y)) →
      (∀ x ∈ s, g a < g x) →
      (s.orderedInsert le a).Pairwise
        (fun x y => k x < k y ∨ (k x = k y ∧ g x < g y)) := by
  intro s
  induction s with
  | nil =>
    intro _ _ _
    simp [List.orderedInsert]
  | cons b t ih =>
    intro hle hs ha
    simp only [List.orderedInsert]
    split_ifs with hab
    · have hkab : k a ≤ k b := (hle a (by simp) b (by simp)).mp hab
      refine List.Pairwise.cons ?_ hs
      intro x hx
      have hkbx : k b ≤ k x := by
        rcases List.mem_cons.mp hx with rfl | hxt
        · exact le_refl _
        · rcases (List.pairwise_cons.mp hs).1 x hxt with h | ⟨h, -⟩
          · exact le_of_lt h
          · exact le_of_eq h
      rcases lt_or_eq_of_le (le_trans hkab hkbx) with h | h
      · exact Or.inl h
      · exact Or.inr ⟨h, ha x hx⟩
    · have hbt := List.pairwise_cons.mp hs
      have hkba : k b < k a := by
        have hnotle : ¬ (k a ≤ k b) :=
          fun hc => hab ((hle a (by simp) b (by simp)).mpr hc)
        exact lt_of_not_le hnotle
      have emb : ∀ z, z ∈ a :: t → z ∈ a :: b :: t := by
        intro z hz
        rcases List.mem_cons.mp hz with rfl | hz
        · exact List.mem_cons_self _ _
        · exact List.mem_cons_of_mem _ (List.mem_cons_of_mem _ hz)
      refine List.Pairwise.cons ?_
        (ih (fun x hx y hy => hle x (emb x hx) y (emb y hy)) hbt.2
          (fun x hx => ha x (List.mem_cons_of_mem b hx)))
      intro x hx
      have hmem : x ∈ a :: t := (List.perm_orderedInsert le a t).mem_iff.mp hx
      rcases List.mem_cons.mp hmem with rfl | hxt
      · exact Or.inl hkba
      · exact hbt.1 x hxt

theorem insertionSort_pairwise_stable {α : Type} (le : α → α → Prop) [DecidableRel le]
    (k : α → ℚ) (g : α → ℕ) :
    ∀ (l : List α),
      (∀ x ∈ l, ∀ y ∈ l, le x y ↔ k x ≤ k y) →
      l.Pairwise (fun x y => g x < g y) →
      (l.insertionSort le).Pairwise
        (fun x y => k x < k y ∨ (k x = k y ∧ g x < g y)) := by
  intro l
  induction l with
  | nil =>
    intro _ _
    constructor
  | cons a t ih =>
    intro hle hg
    rw [List.insertionSort]
    have hperm := List.perm_insertionSort le t
    apply orderedInsert_pairwise_stable le k g a (t.insertionSort le)
    · intro x hx y hy
      have emb : ∀ z, z ∈ a :: t.insertionSort le → z ∈ a :: t := by
        intro z hz
        rcases List.mem_cons.mp hz with rfl | hz
        · exact List.mem_cons_self _ _
        · exact List.mem_cons_of_mem _ (hperm.mem_iff.mp hz)
      exact hle x (emb x hx) y (emb y hy)
    · exact ih
        (fun x hx y hy => hle x (List.mem_cons_of_mem _ hx) y (List.mem_cons_of_mem _ hy))
        (List.pairwise_cons.mp hg).2
    · intro x hx
      exact (List.pairwise_cons.mp hg).1 x (hperm.mem_iff.mp hx)

/-! ### Properties of the renumbering and the cluster characterisation -/

theorem renumber_length : ∀ (n : ℕ) (l : List ClusterInfo),
    (renumber n l).length = l.length := by
  intro n l
  induction l generalizing n with
  | nil => rfl
  | cons x xs ih => simp [renumber, ih]

theorem renumber_getElem : ∀ (n : ℕ) (l : List ClusterInfo) (i : ℕ)
    (h : i < l.length) (h2 : i < (renumber n l).length),
    (renumber n l)[i] = { l[i] with cluster_id := n + i } := by
  intro n l
  induction l generalizing n with
  | nil =>
    intro i h h2
    exact absurd h (Nat.not_lt_zero i)
  | cons x xs ih =>
    intro i h h2
    cases i with
    | zero => simp [renumber]
    | succ m =>
      simp only [renumber, List.getElem_cons_succ]
      rw [ih (n + 1) m (by simpa using h) (by
        rw [renumber_length]
        simpa using h)]
      have harith : n + 1 + m = n + (m + 1) := by omega
      rw [harith]

theorem renumber_map {β : Type} (f : ClusterInfo → β)
    (hf : ∀ x m, f { x with cluster_id := m } = f x) :
    ∀ (n : ℕ) (l : List ClusterInfo), (renumber n l).map f = l.map f := by
  intro n l
  induction l generalizing n with
  | nil => rfl
  | cons x xs ih => simp [renumber, hf, ih]

theorem mkClusterInfos_orig_lt (k : ℕ) (rows : List (SummaryRow × ℕ)) :
    (mkClusterInfos k rows).Pairwise (fun a b => a.orig_id < b.orig_id) := by
  unfold mkClusterInfos
  rw [List.pairwise_map]
  exact List.Pairwise.imp (fun h => h) (List.pairwise_lt_range k)

theorem mkClusterInfos_avg (k : ℕ) (rows : List (SummaryRow × ℕ)) :
    ∀ info ∈ mkClusterInfos k rows, info.avg_pm25 = meanOpt info.member_pm25 := by
  intro info hinfo
  unfold mkClusterInfos at hinfo
  obtain ⟨i, hi, rfl⟩ := List.mem_map.mp hinfo
  rfl

end UrbanEnv

namespace UrbanEnv

/-- Core of the canonical ordering property, for an arbitrary cluster count
and arbitrary labelled rows: the sorted-and-renumbered `cluster_info` list
is ordered by ascending mean PM2.5 of the member cities, ties broken by the
raw (pre-canonicalisation) cluster id, and carries the canonical ids
`0, 1, …` in order. -/
theorem canonical_core (k : ℕ) (r : List (SummaryRow × ℕ))
    (hne : ∀ info ∈ renumber 0 (List.insertionSort infoLe (mkClusterInfos k r)),
      info.member_pm25 ≠ [])
    (i j : ℕ) (hij : i < j)
    (hj : j < (renumber 0 (List.insertionSort infoLe (mkClusterInfos k r))).length) :
    ((renumber 0 (List.insertionSort infoLe (mkClusterInfos k r))).get
        ⟨i, Nat.lt_trans hij hj⟩).cluster_id = i ∧
    ((renumber 0 (List.insertionSort infoLe (mkClusterInfos k r))).get
        ⟨j, hj⟩).cluster_id = j ∧
    (meanQ ((renumber 0 (List.insertionSort infoLe (mkClusterInfos k r))).get
          ⟨i, Nat.lt_trans hij hj⟩).member_pm25 <
        meanQ ((renumber 0 (List.insertionSort infoLe (mkClusterInfos k r))).get
          ⟨j, hj⟩).member_pm25 ∨
      (meanQ ((renumber 0 (List.insertionSort infoLe (mkClusterInfos k r))).get
            ⟨i, Nat.lt_trans hij hj⟩).member_pm25 =
          meanQ ((renumber 0 (List.insertionSort infoLe (mkClusterInfos k r))).get
            ⟨j, hj⟩).member_pm25 ∧
        ((renumber 0 (List.insertionSort infoLe (mkClusterInfos k r))).get
            ⟨i, Nat.lt_trans hij hj⟩).orig_id <
          ((renumber 0 (List.insertionSort infoLe (mkClusterInfos k r))).get
            ⟨j, hj⟩).orig_id)) := by
  have hmapfields : (renumber 0 (List.insertionSort infoLe (mkClusterInfos k r))).map
      (fun x => x.member_pm25) =
      (List.insertionSort infoLe (mkClusterInfos k r)).map (fun x => x.member_pm25) :=
    renumber_map (fun x => x.member_pm25) (fun x m => rfl) 0 _
  have hneS : ∀ x ∈ List.insertionSort infoLe (mkClusterInfos k r),
      x.member_pm25 ≠ [] := by
    intro x hx
    have hmem : x.member_pm25 ∈
        (List.insertionSort infoLe (mkClusterInfos k r)).map (fun y => y.member_pm25) :=
      List.mem_map_of_mem _ hx
    rw [← hmapfields] at hmem
    obtain ⟨y, hy, he⟩ := List.mem_map.mp hmem
    rw [← he]
    exact hne y hy
  have hneI0 : ∀ x ∈ mkClusterInfos k r, x.member_pm25 ≠ [] := by
    intro x hx
    exact hneS x ((List.perm_insertionSort infoLe (mkClusterInfos k r)).symm.mem_iff.mp hx)
  have havg : ∀ x ∈ mkClusterInfos k r, x.avg_pm25 = some (meanQ x.member_pm25) := by
    intro x hx
    rw [mkClusterInfos_avg k r x hx]
    unfold meanOpt
    rw [if_neg (hneI0 x hx)]
  have hle : ∀ x ∈ mkClusterInfos k r, ∀ y ∈ mkClusterInfos k r,
      infoLe x y ↔ meanQ x.member_pm25 ≤ meanQ y.member_pm25 := by
    intro x hx y hy
    unfold infoLe
    rw [havg x hx, havg y hy]
    simp [avgLeB]
  have hpair : (List.insertionSort infoLe (mkClusterInfos k r)).Pairwise
      (fun x y => meanQ x.member_pm25 < meanQ y.member_pm25 ∨
        (meanQ x.member_pm25 = meanQ y.member_pm25 ∧ x.orig_id < y.orig_id)) :=
    insertionSort_pairwise_stable infoLe (fun x => meanQ x.member_pm25)
      (fun x => x.orig_id) (mkClusterInfos k r) hle (mkClusterInfos_orig_lt k r)
  have hjS : j < (List.insertionSort infoLe (mkClusterInfos k r)).length := by
    rw [renumber_length] at hj
    exact hj
  have hiS : i < (List.insertionSort infoLe (mkClusterInfos k r)).length :=
    Nat.lt_trans hij hjS
  have hgi := renumber_getElem 0 (List.insertionSort infoLe (mkClusterInfos k r)) i hiS
    (by rw [renumber_length]; exact hiS)
  have hgj := renumber_getElem 0 (List.insertionSort infoLe (mkClusterInfos k r)) j hjS
    (by rw [renumber_length]; exact hjS)
  have hpair2 := (List.pairwise_iff_getElem.mp hpair) i j hiS hjS hij
  refine ⟨?_, ?_, ?_⟩
  · rw [List.get_eq_getElem]
    rw [hgi]
    simp
  · rw [List.get_eq_getElem]
    rw [hgj]
    simp
  · rw [List.get_eq_getElem, List.get_eq_getElem, hgi, hgj]
    exact hpair2

/-- C1: in the final output of `perform_clustering`, the canonical cluster
ids are `0 .. K-1`, ordered ascending by the mean PM2.5 of the member cities,
with ties broken by the raw (pre-canonicalisation) cluster id ascending.
The hypothesis that every cluster has at least one member PM2.5 value holds
in every run of the source: sklearn's K-means never produces an empty
cluster and missing PM2.5 values were rejected before this point. -/
theorem canonical_cluster_order (df : List SummaryRow)
    (rows : List (SummaryRow × ℕ)) (infos : List ClusterInfo)
    (hok : perform_clustering df = Except.ok (rows, infos))
    (hne : ∀ info ∈ infos, info.member_pm25 ≠ [])
    (i j : ℕ) (hij : i < j) (hj : j < infos.length) :
    (infos.get ⟨i, Nat.lt_trans hij hj⟩).cluster_id = i ∧
    (infos.get ⟨j, hj⟩).cluster_id = j ∧
    (meanQ (infos.get ⟨i, Nat.lt_trans hij hj⟩).member_pm25 <
        meanQ (infos.get ⟨j, hj⟩).member_pm25 ∨
      (meanQ (infos.get ⟨i, Nat.lt_trans hij hj⟩).member_pm25 =
          meanQ (infos.get ⟨j, hj⟩).member_pm25 ∧
        (infos.get ⟨i, Nat.lt_trans hij hj⟩).orig_id <
          (infos.get ⟨j, hj⟩).orig_id)) := by
  simp only [perform_clustering] at hok
  split_ifs at hok with h1 h2
  obtain ⟨hrows, hinfos⟩ := Prod.mk.injEq .. |>.mp (Except.ok.inj hok)
  subst hinfos
  exact canonical_core 4 _ hne i j hij hj

end UrbanEnv

namespace UrbanEnv

set_option maxRecDepth 2000 in
/-- Witness for C1: the Cluster Engine on the four-city table `dfW` produces
canonical ids 0 and 1 in order, with strictly increasing mean PM2.5. -/
theorem canonical_cluster_order_witness :
    (infosW.get ⟨0, by decide⟩).cluster_id = 0 ∧
    (infosW.get ⟨1, by decide⟩).cluster_id = 1 ∧
    (meanQ (infosW.get ⟨0, by decide⟩).member_pm25 <
        meanQ (infosW.get ⟨1, by decide⟩).member_pm25 ∨
      (meanQ (infosW.get ⟨0, by decide⟩).member_pm25 =
          meanQ (infosW.get ⟨1, by decide⟩).member_pm25 ∧
        (infosW.get ⟨0, by decide⟩).orig_id < (infosW.get ⟨1, by decide⟩).orig_id)) :=
  canonical_cluster_order dfW rowsW infosW (by with_unfolding_all decide)
    (by decide) 0 1 (by decide) (by decide)

end UrbanEnv
